/-
Verification of the eurozulu/mainline command-line library.

This file gives a shallow embedding of the three source files of the
repository — `values/values.go` (type-directed string coercion),
`flags/flags.go` (flag registry and token application) and the command
dispatcher (`Commands.Run` / `Commands.findCommand`) — and proves or
refutes the frozen specification claims against it.

Modelling conventions:
  * Go strings are Lean `String`s; the handful of `strings` stdlib
    functions the source uses are re-implemented on `List Char`.
  * `reflect` types are modelled by the closed inductive `GoType`
    covering every kind the source dispatches on; `reflect` values by
    `GoVal`, which records the dynamic type where the source depends
    on it.
  * A Go call can return normally, return an error value, or panic;
    outcomes are `Outcome`/`GoResult` with a distinguished panic case.
    The places where the source's use of `reflect` panics
    (`Type.Implements` on a nil type, `Value.Set` on a value of a
    non-assignable type, …) are modelled explicitly.
  * Go maps are modelled as association lists with first-match lookup;
    insertion prepends.  The claims settled here only iterate maps with
    a single relevant entry, so Go's unspecified iteration order is not
    load-bearing.
  * Calls into the Go standard library whose behaviour no claim depends
    on (float/duration/URL/time/JSON parsing) are collected in the
    `Stdlib` record and universally quantified in the theorems; closed
    counterexamples instantiate it with `extDefault`, whose fields are
    never reached on the evaluated paths.
-/
import Mathlib

namespace Mainline

/-! ### Go `strings` standard-library functions used by the source -/

/-- `strings.HasPrefix(s, "-")`: the only HasPrefix call sites in the
source test for a leading dash. -/
def startsWithDash (s : String) : Bool :=
  match s.data with
  | [] => false
  | c :: _ => c == '-'

/-- `strings.TrimLeft(s, "-")` on a character list: drop every leading
`'-'`. -/
def trimDashList : List Char → List Char
  | [] => []
  | c :: rest => if c == '-' then trimDashList rest else c :: rest

/-- `strings.TrimLeft(s, "-")`: remove all leading dash characters. -/
def trimDash (s : String) : String := ⟨trimDashList s.data⟩

/-- `strings.Split(s, sep)` for a one-character separator, on character
lists.  Splitting the empty string yields one empty piece, exactly as
in Go (`strings.Split("", ",") = [""]`). -/
def splitOnChar (sep : Char) : List Char → List (List Char)
  | [] => [[]]
  | c :: rest =>
    if c == sep then [] :: splitOnChar sep rest
    else
      match splitOnChar sep rest with
      | [] => [[c]]
      | piece :: pieces => (c :: piece) :: pieces

/-- `strings.Split(s, SliceDelimiter)` with the default delimiter `","`
(the source's `SliceDelimiter` package variable at its default). -/
def splitComma (s : String) : List String :=
  (splitOnChar ',' s.data).map String.mk

/-- ASCII lower-casing of one character, as Go's simple case folding
acts on ASCII letters (all inputs in the claims are ASCII). -/
def lowerChar (c : Char) : Char :=
  if 'A' ≤ c ∧ c ≤ 'Z' then Char.ofNat (c.toNat + 32) else c

/-- `strings.EqualFold(a, b)`: case-insensitive equality.  Modelled as
equality after per-character ASCII lower-casing; Go folds rune by rune,
so strings of different lengths are never fold-equal. -/
def equalFold (a b : String) : Bool :=
  a.data.map lowerChar == b.data.map lowerChar

/-- `path.Base`: the last element of a slash-separated path.  The empty
path gives `"."`; trailing slashes are removed first; an all-slash path
gives `"/"`. -/
def pathBase (s : String) : String :=
  if s = "" then "."
  else
    let trimmed := (s.data.reverse.dropWhile (· == '/')).reverse
    if trimmed = [] then "/"
    else ⟨(trimmed.reverse.takeWhile (· != '/')).reverse⟩

/-! ### Go `strconv` standard-library parsers used by the source -/

/-- `strconv.ParseBool`: exactly the twelve Go boolean literals. -/
def goParseBool (s : String) : Option Bool :=
  if s = "1" ∨ s = "t" ∨ s = "T" ∨ s = "true" ∨ s = "TRUE" ∨ s = "True" then
    some true
  else if s = "0" ∨ s = "f" ∨ s = "F" ∨ s = "false" ∨ s = "FALSE" ∨ s = "False" then
    some false
  else none

/-- Decimal digit run → value, `none` on a non-digit or an empty run. -/
def decDigits : List Char → Option Nat
  | [] => none
  | cs => cs.foldl (fun acc c =>
      match acc with
      | none => none
      | some n => if '0' ≤ c ∧ c ≤ '9' then some (n * 10 + (c.toNat - '0'.toNat)) else none)
      (some 0)

/-- `strconv.ParseInt(s, 10, 64)`: optional sign, a non-empty run of
decimal digits, and a signed 64-bit range check.  Returns `none` where
Go returns a non-nil error (including range errors, which the source
treats as failures). -/
def goParseInt64 (s : String) : Option Int :=
  let signed : Option Int :=
    match s.data with
    | [] => none
    | '+' :: rest => (decDigits rest).map Int.ofNat
    | '-' :: rest => (decDigits rest).map (fun n => -(Int.ofNat n))
    | cs => (decDigits cs).map Int.ofNat
  match signed with
  | none => none
  | some v => if -(2 ^ 63) ≤ v ∧ v ≤ 2 ^ 63 - 1 then some v else none

/-! ### The type and value model (`reflect` shallow embedding) -/

/-- The `reflect.Kind`s the source dispatches on.  `time.Duration` is a
defined type whose kind is `Int64`. -/
inductive GoKind where
  | bool | int | int8 | int16 | int32 | int64
  | float32 | float64 | string
  | ptr | slice | map | struct
deriving DecidableEq, Repr

/-- A Go type, covering every type shape reachable through the source's
coercion dispatch: the scalar kinds, `time.Duration` (a named `int64`),
pointers, slices, maps, the two special-cased struct types `url.URL`
and `time.Time`, and arbitrary other struct types described by their
printed name and whether they implement `json.Unmarshaler` /
`encoding.TextUnmarshaler`.  (Kinds the source rejects in its `default`
branch — channels, funcs, complex — are not needed by any claim and are
omitted.) -/
inductive GoType where
  | bool
  | int
  | int8
  | int16
  | int32
  | int64
  | duration
  | float32
  | float64
  | string
  | ptr (elem : GoType)
  | slice (elem : GoType)
  | goMap (key val : GoType)
  | urlStruct
  | timeStruct
  | strct (name : String) (hasJSONUnmarshaler hasTextUnmarshaler : Bool)
deriving DecidableEq, Repr

/-- `reflect.Type.Kind()`. -/
def GoType.kind : GoType → GoKind
  | .bool => .bool
  | .int => .int
  | .int8 => .int8
  | .int16 => .int16
  | .int32 => .int32
  | .int64 => .int64
  | .duration => .int64
  | .float32 => .float32
  | .float64 => .float64
  | .string => .string
  | .ptr _ => .ptr
  | .slice _ => .slice
  | .goMap _ _ => .map
  | .urlStruct => .struct
  | .timeStruct => .struct
  | .strct _ _ _ => .struct

/-- `reflect.Type.String()`, for the error messages the source formats. -/
def GoType.str : GoType → String
  | .bool => "bool"
  | .int => "int"
  | .int8 => "int8"
  | .int16 => "int16"
  | .int32 => "int32"
  | .int64 => "int64"
  | .duration => "time.Duration"
  | .float32 => "float32"
  | .float64 => "float64"
  | .string => "string"
  | .ptr e => "*" ++ e.str
  | .slice e => "[]" ++ e.str
  | .goMap k v => "map[" ++ k.str ++ "]" ++ v.str
  | .urlStruct => "url.URL"
  | .timeStruct => "time.Time"
  | .strct n _ _ => n

/-- A Go value as the coercion engine produces and consumes them.  The
dynamic type is recorded wherever the source's behaviour depends on it.
Float, map, URL and time payloads carry no further data: no claim
inspects them, only their shapes and the success of their parses. -/
inductive GoVal where
  | vbool (b : Bool)
  | vstring (s : String)
  | vint (t : GoType) (i : Int)
  | vfloat (t : GoType)
  | vptr (elem : GoType) (v : GoVal)
  | vslice (elem : GoType) (elems : List GoVal)
  | vmap (key val : GoType)
  | vstructZero (t : GoType)
  | vurl
  | vtime

/-- The dynamic type of a value (`reflect.TypeOf`). -/
def dynTypeOf : GoVal → GoType
  | .vbool _ => .bool
  | .vstring _ => .string
  | .vint t _ => t
  | .vfloat t => t
  | .vptr e _ => .ptr e
  | .vslice e _ => .slice e
  | .vmap k v => .goMap k v
  | .vstructZero t => t
  | .vurl => .urlStruct
  | .vtime => .timeStruct

/-- Outcome of a Go call that returns `(T, error)`: a normal result, a
returned error value, or a runtime panic. -/
inductive Outcome (α : Type) where
  | ok (v : α)
  | err (msg : String)
  | goPanic (msg : String)
deriving DecidableEq, Repr

/-- The standard-library parsers the coercion engine calls whose
behaviour no claim depends on.  Theorems quantify over this record;
every evaluated path in a closed theorem avoids all of its fields. -/
structure Stdlib where
  /-- does `strconv.ParseFloat(s, 64)` succeed -/
  parseFloat : String → Bool
  /-- `time.ParseDuration`, as nanoseconds -/
  parseDuration : String → Option Int
  /-- `url.Parse` (the source dereferences the parsed `*url.URL`) -/
  parseURL : String → Option Unit
  /-- `time.Parse(TimeFormat, s)` with the default RFC3339 format -/
  parseTime : String → Option Unit
  /-- does `json.Unmarshal([]byte(s), &m)` into a map of this type succeed -/
  jsonUnmarshalMap : GoType → String → Bool

/-- A concrete instantiation of `Stdlib` for closed theorems.  Its
fields are unreachable on every path those theorems evaluate, so any
instantiation gives the same results; these under-approximations are
sound fragments of the real parsers. -/
def extDefault : Stdlib where
  parseFloat := fun s => (goParseInt64 s).isSome
  parseDuration := fun s => if s = "0" then some 0 else none
  parseURL := fun _ => some ()
  parseTime := fun _ => none
  jsonUnmarshalMap := fun _ _ => false

/-! ### The coercion engine (`values/values.go`)

Each definition mirrors the Go function of the same name.  Where the
source's use of `reflect` would panic at runtime, the model returns the
`goPanic` outcome with the reflect panic message. -/

/-- `boolFromString`: defaults to `true` when the token is empty (flag
presence alone), otherwise `strconv.ParseBool`. -/
def boolFromString (s : String) (t : GoType) : Outcome GoVal :=
  if s = "" then .ok (.vbool true)
  else
    match goParseBool s with
    | some b => .ok (.vbool b)
    | none => .err (s ++ " could not be read as a " ++ t.str)

/-- `stringFromString`: `reflect.New(t)`, `SetString`, and return the
dereferenced element — a value of type `t` holding `s` verbatim. -/
def stringFromString (s : String) (_t : GoType) : Outcome GoVal :=
  .ok (.vstring s)

/-- `floatFromString`: parse with `strconv.ParseFloat(s, 64)` (empty
token → 0), then `iv := reflect.New(t); iv.Elem().SetFloat(f)` and
return `iv.Interface()` — note the source returns the *pointer* `iv`,
not its element, so the result's dynamic type is `*t`. -/
def floatFromString (ext : Stdlib) (s : String) (t : GoType) : Outcome GoVal :=
  if s = "" then .ok (.vptr t (.vfloat t))
  else if ext.parseFloat s then .ok (.vptr t (.vfloat t))
  else .err (s ++ " could not be read as a " ++ t.str)

/-- `intFromString`: special-cases `time.Duration` (returning `&d`, a
`*time.Duration`); otherwise `strconv.ParseInt(s, 10, 64)` into a local
`var i int` which is returned — so the result's dynamic type is the
platform `int` whatever sized integer type `t` is. -/
def intFromString (ext : Stdlib) (s : String) (t : GoType) : Outcome GoVal :=
  if t = .duration then
    if s = "" then .ok (.vptr .duration (.vint .duration 0))
    else
      match ext.parseDuration s with
      | some d => .ok (.vptr .duration (.vint .duration d))
      | none => .err (s ++ " could not be read as a " ++ t.str ++ "  parse error")
  else
    if s = "" then .ok (.vint .int 0)
    else
      match goParseInt64 s with
      | some i => .ok (.vint .int i)
      | none => .err (s ++ " could not be read as a " ++ t.str)

/-- `structureFromString`: empty token → the type's zero value
(`reflect.New(t).Elem()`); `url.URL` and `time.Time` are recognized by
type identity and parsed directly.  For every other struct type the
source then evaluates `t.Implements(reflect.TypeOf((json.Unmarshaler)(nil)))`;
`reflect.TypeOf` of a nil interface value is the nil `reflect.Type`, and
`Type.Implements(nil)` panics — so no other struct type ever reaches the
`TextUnmarshaler` check or the final unsupported-interface error return,
whether or not it implements either interface. -/
def structureFromString (ext : Stdlib) (s : String) (t : GoType) : Outcome GoVal :=
  if s = "" then .ok (.vstructZero t)
  else if t = .urlStruct then
    match ext.parseURL s with
    | some _ => .ok .vurl
    | none => .err (s ++ " could not be read as a " ++ t.str ++ "  parse error")
  else if t = .timeStruct then
    match ext.parseTime s with
    | some _ => .ok .vtime
    | none => .err (s ++ " could not be read as a " ++ t.str ++ "  parse error")
  else
    -- t.Implements(reflect.TypeOf((json.Unmarshaler)(nil))) panics:
    -- the json.Unmarshal branch, the TextUnmarshaler branch and the
    -- final error return below it are unreachable.
    .goPanic "reflect: nil type passed to Type.Implements"

/-- `mapFromString`: `mp := reflect.New(t)`; non-empty tokens are JSON;
the empty token gets a fresh empty map.  The source returns the pointer
`mp.Interface()`, so the result's dynamic type is `*t`. -/
def mapFromString (ext : Stdlib) (s : String) (k v : GoType) : Outcome GoVal :=
  if s ≠ "" then
    if ext.jsonUnmarshalMap (.goMap k v) s then .ok (.vptr (.goMap k v) (.vmap k v))
    else .err "json unmarshal error"
  else .ok (.vptr (.goMap k v) (.vmap k v))

/-- The element loop of `sliceFromString`: coerce each piece with the
element coercion `coe`, rewrap element errors, dereference pointer
results (`ev.Elem()`), and `reflect.Append` — which panics if the
(dereferenced) element's type is not assignable to the slice's element
type. -/
def coerceSliceElems (coe : String → Outcome GoVal) (elemT : GoType) :
    List String → Outcome (List GoVal)
  | [] => .ok []
  | sa :: rest =>
    match coe sa with
    | .ok sel =>
      let ev := match sel with
        | .vptr _ inner => inner
        | v => v
      if dynTypeOf ev = elemT then
        match coerceSliceElems coe elemT rest with
        | .ok evs => .ok (ev :: evs)
        | .err m => .err m
        | .goPanic m => .goPanic m
      else
        .goPanic ("reflect.Append: value of type " ++ (dynTypeOf ev).str ++
          " is not assignable to type " ++ elemT.str)
    | .err _ => .err (sa ++ " could not be read as a " ++ elemT.str)
    | .goPanic m => .goPanic m

/-- `sliceFromString`: split the token on the (default) delimiter and
coerce every piece to the element type. -/
def sliceFromString (coe : String → Outcome GoVal) (elemT : GoType) (s : String) :
    Outcome GoVal :=
  match coerceSliceElems coe elemT (splitComma s) with
  | .ok evs => .ok (.vslice elemT evs)
  | .err m => .err m
  | .goPanic m => .goPanic m

/-- `ValueFromString`: kind-directed dispatch.  The pointer branch
coerces to the pointee type, then `p := reflect.New(t.Elem());
p.Elem().Set(reflect.ValueOf(v))` — `Set` panics when the inner
result's dynamic type is not assignable to the pointee type (for our
closed set of distinct named types, assignability is type identity).
`time.Duration` reaches the integer branch because its `Kind()` is
`Int64`.  (The `reflect.Interface` branch is unreachable through the
flag registry — every binding is a pointer — and is omitted.) -/
def valueFromString (ext : Stdlib) : GoType → String → Outcome GoVal
  | .ptr e => fun v =>
    match valueFromString ext e v with
    | .ok inner =>
      if dynTypeOf inner = e then .ok (.vptr e inner)
      else
        .goPanic ("reflect.Set: value of type " ++ (dynTypeOf inner).str ++
          " is not assignable to type " ++ e.str)
    | .err m => .err m
    | .goPanic m => .goPanic m
  | .urlStruct => fun v => structureFromString ext v .urlStruct
  | .timeStruct => fun v => structureFromString ext v .timeStruct
  | .strct n hj ht => fun v => structureFromString ext v (.strct n hj ht)
  | .slice e => fun v => sliceFromString (valueFromString ext e) e v
  | .goMap k val => fun v => mapFromString ext v k val
  | .float64 => fun v => floatFromString ext v .float64
  | .float32 => fun v => floatFromString ext v .float32
  | .int64 => fun v => intFromString ext v .int64
  | .int32 => fun v => intFromString ext v .int32
  | .int16 => fun v => intFromString ext v .int16
  | .int8 => fun v => intFromString ext v .int8
  | .int => fun v => intFromString ext v .int
  | .duration => fun v => intFromString ext v .duration
  | .bool => fun v => boolFromString v .bool
  | .string => fun v => stringFromString v .string

/-! ### The flag registry (`flags/flags.go`)

The registry's Go map `map[string]interface{}` holds, under each flag
name, the pointer the flag was registered with, and under the reserved
key `""` the accumulated `[]string` of positional parameters.  Pointers
are modelled as addresses into an explicit heap of typed cells. -/

/-- A registered pointer: the address of its cell and the pointee
type.  `reflect.TypeOf` of the stored interface value is `ptr ty`. -/
structure FlagPtr where
  addr : Nat
  ty : GoType
deriving DecidableEq, Repr

/-- One entry of the registry map: either the `""` key's parameter
slice or a registered binding pointer. -/
inductive RegVal where
  | params (ss : List String)
  | binding (p : FlagPtr)
deriving DecidableEq, Repr

/-- The `Flags` struct: strict/permissive mode and the name→value map,
modelled as an association list with first-match lookup; insertion
prepends (so re-inserting a key shadows the old entry, as a Go map
update replaces it). -/
structure Flags where
  IgnoreUnknown : Bool
  flags : List (String × RegVal)
deriving DecidableEq, Repr

/-- The heap backing the registered pointers. -/
def Heap := List (Nat × GoVal)

/-- Go map lookup on the association-list model. -/
def alookup (k : String) : List (String × RegVal) → Option RegVal
  | [] => none
  | (k', v) :: rest => if k = k' then some v else alookup k rest

/-- Heap lookup. -/
def heapLookup (a : Nat) : List (Nat × GoVal) → Option GoVal
  | [] => none
  | (a', v) :: rest => if a = a' then some v else heapLookup a rest

/-- `NewFlags`. -/
def NewFlags (ignoreUnknown : Bool) : Flags :=
  { IgnoreUnknown := ignoreUnknown, flags := [] }

/-- `Flags.Parameters`: the `[]string` under the `""` key, nil when the
key is absent.  (If a binding had been registered under the name `""`,
the source's type assertion `v.([]string)` would panic; no claim ever
registers that name, and the model returns `[]` there.) -/
def Parameters (fs : Flags) : List String :=
  match alookup "" fs.flags with
  | some (.params ss) => ss
  | _ => []

/-- `fs.flags[""] = append(fs.Parameters(), x)`. -/
def appendParam (fs : Flags) (x : String) : Flags :=
  { fs with flags := ("", .params (Parameters fs ++ [x])) :: fs.flags }

/-- Result of a call that returns only `error` in Go. -/
inductive GoResult where
  | ok
  | goErr (msg : String)
  | goPanic (msg : String)
deriving DecidableEq, Repr

/-- Modelled from the spec: the `values.SetValue(reflect.ValueOf(v), iVal)`
call at the end of `Apply`'s loop body resolves to the coercion
package's two-argument setter, whose source is not in the repository
(the in-repo `SetValue` has a different signature).  Per §4.2 step 8 of
the spec it "writes the coerced value into the bound location":
pointer-wrapped coercion results are dereferenced and the value stored
in the bound cell; a receiver that is not a pointer (the `""` key's
parameter slice) is not addressable and `reflect.Value.Set` panics. -/
def applySetValue (h : Heap) (rv : RegVal) (iVal : GoVal) : Heap × GoResult :=
  match rv with
  | .params _ => (h, .goPanic "reflect: reflect.Value.Set using unaddressable value")
  | .binding p =>
    let w := match iVal with
      | .vptr _ inner => inner
      | v => v
    if dynTypeOf w = p.ty then (((p.addr, w) :: h : List (Nat × GoVal)), .ok)
    else
      (h, .goPanic ("reflect.Set: value of type " ++ (dynTypeOf w).str ++
        " is not assignable to type " ++ p.ty.str))

/-- The `reflect.TypeOf(v)` of a registry entry: the stored pointer's
type for a binding, `[]string` for the parameter slice. -/
def regValType : RegVal → GoType
  | .params _ => .slice .string
  | .binding p => .ptr p.ty

/-- `Flags.Apply`, scanning the argument list left to right.  The
source's index loop advances `i` by one or two each iteration (the
boolean-recovery branch does `i++` then `i--`, a net advance of one,
putting the lookahead token back); the model recurses on the
corresponding tail.  The receiver's map is mutated in place in Go, so
the model threads the updated `Flags` and heap and returns them beside
the `error` result. -/
def applyGo (ext : Stdlib) (fs : Flags) (h : Heap) :
    List String → Flags × Heap × GoResult
  | [] => (fs, h, .ok)
  -- Last token: no lookahead exists (`i+1 < len(args)` is false).
  | [a] =>
    -- collect non flag parameters in empty key
    if ¬ startsWithDash a ∨ a = "-" then
      applyGo ext (appendParam fs a) h []
    else
      let arg := trimDash a
      match alookup arg fs.flags with
      | none =>
        -- unknown flag
        if fs.IgnoreUnknown then
          applyGo ext (appendParam fs ("-" ++ arg)) h []
        else
          (fs, h, .goErr ("-" ++ arg ++ " is an unknown flag"))
      | some rv =>
        match valueFromString ext (regValType rv) "" with
        | .ok iVal =>
          match applySetValue h rv iVal with
          | (h', .ok) => applyGo ext fs h' []
          | (h', r) => (fs, h', r)
        | .err m =>
          -- special case for bool: with every binding stored as a
          -- pointer, to.Kind() is Ptr, never Bool, so this recovery
          -- branch is unreachable; it is mirrored here as written.
          if (regValType rv).kind = .bool then
            match applySetValue h rv (.vbool true) with
            | (h', .ok) => applyGo ext fs h' []
            | (h', r) => (fs, h', r)
          else
            (fs, h, .goErr ("could not read '' for flag -" ++ arg ++ "  " ++ m))
        | .goPanic m => (fs, h, .goPanic m)
  | a :: next :: rest2 =>
    -- collect non flag parameters in empty key
    if ¬ startsWithDash a ∨ a = "-" then
      applyGo ext (appendParam fs a) h (next :: rest2)
    else
      let arg := trimDash a
      match alookup arg fs.flags with
      | none =>
        -- unknown flag
        if fs.IgnoreUnknown then
          applyGo ext (appendParam fs ("-" ++ arg)) h (next :: rest2)
        else
          (fs, h, .goErr ("-" ++ arg ++ " is an unknown flag"))
      | some rv =>
        -- lookahead: `if i+1 < len(args) && !strings.HasPrefix(args[i+1], "-")`
        -- (a lone "-" *does* have the "-" prefix, so it is never
        -- consumed as a value)
        if ¬ startsWithDash next then
          -- i++ : `next` is the candidate value
          match valueFromString ext (regValType rv) next with
          | .ok iVal =>
            match applySetValue h rv iVal with
            | (h', .ok) => applyGo ext fs h' rest2
            | (h', r) => (fs, h', r)
          | .err m =>
            -- the unreachable bool recovery branch, as in the source
            if (regValType rv).kind = .bool then
              match applySetValue h rv (.vbool true) with
              | (h', .ok) => applyGo ext fs h' (next :: rest2)  -- i-- : `next` not consumed
              | (h', r) => (fs, h', r)
            else
              (fs, h, .goErr ("could not read '" ++ next ++ "' for flag -" ++ arg ++ "  " ++ m))
          | .goPanic m => (fs, h, .goPanic m)
        else
          -- the next token is dash-led: the value is absent
          match valueFromString ext (regValType rv) "" with
          | .ok iVal =>
            match applySetValue h rv iVal with
            | (h', .ok) => applyGo ext fs h' (next :: rest2)
            | (h', r) => (fs, h', r)
          | .err m =>
            if (regValType rv).kind = .bool then
              match applySetValue h rv (.vbool true) with
              | (h', .ok) => applyGo ext fs h' (next :: rest2)
              | (h', r) => (fs, h', r)
            else
              (fs, h, .goErr ("could not read '' for flag -" ++ arg ++ "  " ++ m))
          | .goPanic m => (fs, h, .goPanic m)

/-- The argument of `AddFlag`: a nil interface or nil pointer, a
non-pointer value, or a non-nil pointer. -/
inductive FlagArg where
  | nilArg
  | nonPtr (v : GoVal)
  | ptrArg (p : FlagPtr)

/-- The registration loop of `AddFlag`: names are checked and inserted
one at a time, so on a duplicate the names already inserted in this
call stay in the map. -/
def addFlagNames (p : FlagPtr) (fs : Flags) : List String → Flags × GoResult
  | [] => (fs, .ok)
  | n :: rest =>
    match alookup n fs.flags with
    | some _ => (fs, .goErr ("duplicate flag name.  '" ++ n ++ "' already exists."))
    | none => addFlagNames p { fs with flags := (n, .binding p) :: fs.flags } rest

/-- `Flags.AddFlag`.  The source checks, in order: at least one name;
`v == nil`; `reflect.ValueOf(v).IsNil()` (which panics for values of a
kind that cannot be nil — the `Kind() != Ptr` error is reachable only
for nilable non-pointer kinds such as slices and maps); then registers
the names one by one. -/
def addFlag (fs : Flags) (v : FlagArg) (names : List String) : Flags × GoResult :=
  if names = [] then (fs, .goErr "flag name is missing")
  else
    match v with
    | .nilArg =>
      (fs, .goErr ("flag value for '" ++ String.intercalate " " names ++ "' is nil"))
    | .nonPtr gv =>
      match (dynTypeOf gv).kind with
      | .slice | .map =>
        (fs, .goErr ("flag value for '" ++ String.intercalate " " names ++ "' is not a pointer"))
      | _ => (fs, .goPanic "reflect: call of reflect.Value.IsNil on non-nilable Value")
    | .ptrArg p => addFlagNames p fs names

/-! ### The command dispatcher (`Commands.Run` / `Commands.findCommand`)

`Commands` is `map[string]interface{}` from command names to handlers.
What a mapped value is — nil, a help command, a method, a func, or
something else — is all `Run` inspects before dispatching, so handlers
are modelled by that classification.  The `functions` package and the
help command (their sources are not in the repository) are cut off at
the dispatch point: the model's result records which handler was
invoked with which remaining arguments. -/

/-- Classification of a command-table value, as `Run` tests it:
`IsHelpCommand`, `functions.IsMethod`, `functions.IsFunc`, in that
order, with nil checked before any of them. -/
inductive CmdVal where
  | nilCmd
  | helpCmd
  | methodCmd
  | funcCmd
  | otherCmd
deriving DecidableEq, Repr

/-- The command table.  A Go map iterates in unspecified order;
the association-list order stands in for one such order, and every
claim settled below uses a table with a single entry, for which the
order is immaterial. -/
def Commands := List (String × CmdVal)

/-- Go map lookup on the command table. -/
def cmdLookup (k : String) : List (String × CmdVal) → Option CmdVal
  | [] => none
  | (k', v) :: rest => if k = k' then some v else cmdLookup k rest

/-- `Commands.findCommand`: scan the map keys for a case-insensitive
(`strings.EqualFold`) match and return the actual (case-sensitive) key;
`none` when no key matches. -/
def findCommand (cmds : Commands) (arg : String) : Option String :=
  match cmds with
  | [] => none
  | (k, _) :: rest => if equalFold k arg then some k else findCommand rest arg

/-- What `Run` did: returned an error, or dispatched to the mapped
handler (modelled from the spec for the out-of-repository
`CallHelpCommand` / `functions.CallMethod` / `functions.CallFunc`:
the handler mapped under `key` is invoked with the remaining
positional arguments). -/
inductive RunOutcome where
  | runErr (msg : String)
  | runPanic (msg : String)
  | invokeHelp (key : String) (args : List String)
  | invokeMethod (key : String) (args : List String)
  | invokeFunc (key : String) (args : List String)
deriving DecidableEq, Repr

/-- `Commands.Run`.  `os.Args[0]` (the process name) and the package
global `GlobalFlags = NewFlags(true)` are process state; the model
takes the process name and the registry's current state (flags map and
heap) as explicit arguments and returns the final registry state
beside the outcome. -/
def runGo (ext : Stdlib) (cmds : Commands) (osArgs0 : String) (fs : Flags)
    (h : Heap) (args : List String) : RunOutcome × Flags × Heap :=
  -- strip leading arg if it's program name
  let args := match args with
    | a0 :: rest => if a0 = osArgs0 then rest else a0 :: rest
    | [] => []
  match applyGo ext fs h args with
  | (fs', h', .goErr m) => (.runErr m, fs', h')
  | (fs', h', .goPanic m) => (.runPanic m, fs', h')
  | (fs', h', .ok) =>
    -- adjust the arguments with any global flags removed
    let ps := Parameters fs'
    -- use first arg as the command, if it exists
    let arg := match ps with | [] => "" | a :: _ => a
    let rest := match ps with | [] => [] | _ :: r => r
    match findCommand cmds arg with
    | none =>
      if arg = "" then
        (.runErr ("no command given.  specify a command: " ++ pathBase osArgs0 ++ " <command>"),
         fs', h')
      else
        (.runErr ("'" ++ arg ++ "' is not a known command"), fs', h')
    | some cmd =>
      match cmdLookup cmd cmds with
      | none =>
        (.runErr ("CONFIG ERROR: command '" ++ arg ++ "' (" ++ cmd ++ ") is not mapped"), fs', h')
      | some .nilCmd =>
        (.runErr ("CONFIG ERROR: command '" ++ arg ++ "' (" ++ cmd ++ ") is mapped to a nil value"),
         fs', h')
      | some .helpCmd => (.invokeHelp cmd rest, fs', h')
      | some .methodCmd => (.invokeMethod cmd rest, fs', h')
      | some .funcCmd => (.invokeFunc cmd rest, fs', h')
      | some .otherCmd =>
        (.runErr "CONFIG ERROR: handler is an unknown type of function or method", fs', h')

/-! ### Derived constructions and helper lemmas -/

/-- A run of `k` dash characters. -/
def dashes (k : Nat) : String := ⟨List.replicate k '-'⟩

/-- Register one name to a pointer (one successful step of the
`AddFlag` loop). -/
def regInsert (p : FlagPtr) (f : Flags) (n : String) : Flags :=
  { f with flags := (n, .binding p) :: f.flags }

/-- Register a list of names to a pointer, left to right. -/
def regAll (p : FlagPtr) (fs : Flags) (names : List String) : Flags :=
  names.foldl (regInsert p) fs

/-- The value-absent step of `Apply`'s loop body, verbatim from
`applyGo`: the registry entry's type is coerced from the empty token
(`argVal` stays `""`), the result written through `SetValue` on
success, and processing continues with `cont`; a coercion error hits
the (unreachable) bool check and otherwise returns the wrapped error;
a coercion panic aborts.  Factored out so that the lone-dash behaviour
can be stated for *every* binding type at once, whatever the empty
coercion of that type does. -/
def absentValueStep (ext : Stdlib) (fs : Flags) (h : Heap) (rv : RegVal) (arg : String)
    (cont : List String) : Flags × Heap × GoResult :=
  match valueFromString ext (regValType rv) "" with
  | .ok iVal =>
    match applySetValue h rv iVal with
    | (h', .ok) => applyGo ext fs h' cont
    | (h', r) => (fs, h', r)
  | .err m =>
    if (regValType rv).kind = .bool then
      match applySetValue h rv (.vbool true) with
      | (h', .ok) => applyGo ext fs h' cont
      | (h', r) => (fs, h', r)
    else
      (fs, h, .goErr ("could not read '' for flag -" ++ arg ++ "  " ++ m))
  | .goPanic m => (fs, h, .goPanic m)

theorem trimDashList_replicate (k : Nat) (l : List Char) :
    trimDashList (List.replicate k '-' ++ l) = trimDashList l := by
  induction k with
  | zero => simp [List.replicate]
  | succ k ih => simpa [List.replicate, trimDashList] using ih

theorem trimDashList_of_head_ne (c : Char) (cs : List Char) (hc : c ≠ '-') :
    trimDashList (c :: cs) = c :: cs := by
  simp [trimDashList, hc]

theorem regAll_alookup_of_not_mem (p : FlagPtr) (names : List String) (fs : Flags)
    (k : String) (hk : k ∉ names) :
    alookup k (regAll p fs names).flags = alookup k fs.flags := by
  induction names generalizing fs with
  | nil => rfl
  | cons n rest ih =>
    have hkn : k ≠ n := fun h => hk (h ▸ List.mem_cons_self n rest)
    have hkr : k ∉ rest := fun h => hk (List.mem_cons_of_mem n h)
    calc alookup k (regAll p fs (n :: rest)).flags
        = alookup k (regAll p (regInsert p fs n) rest).flags := rfl
      _ = alookup k (regInsert p fs n).flags := ih (regInsert p fs n) hkr
      _ = alookup k fs.flags := by simp [regInsert, alookup, hkn]

theorem addFlagNames_first_dup (p : FlagPtr) (d : String) (post : List String)
    (pre : List String) (fs : Flags)
    (hfresh : ∀ m ∈ pre, alookup m fs.flags = none) (hnd : pre.Nodup)
    (hdup : (alookup d fs.flags).isSome = true) :
    addFlagNames p fs (pre ++ d :: post) =
      (regAll p fs pre,
       .goErr ("duplicate flag name.  '" ++ d ++ "' already exists.")) := by
  induction pre generalizing fs with
  | nil =>
    obtain ⟨v, hv⟩ := Option.isSome_iff_exists.mp hdup
    simp [addFlagNames, regAll, hv]
  | cons m pre' ih =>
    have hm : alookup m fs.flags = none := hfresh m (List.mem_cons_self m pre')
    have step : addFlagNames p fs ((m :: pre') ++ d :: post) =
        addFlagNames p (regInsert p fs m) (pre' ++ d :: post) := by
      simp [addFlagNames, hm, regInsert]
    rw [step]
    have hfresh' : ∀ x ∈ pre', alookup x (regInsert p fs m).flags = none := by
      intro x hx
      have hxm : x ≠ m := fun heq => (List.nodup_cons.mp hnd).1 (heq ▸ hx)
      simp [regInsert, alookup, hxm, hfresh x (List.mem_cons_of_mem m hx)]
    have hdup' : (alookup d (regInsert p fs m).flags).isSome = true := by
      by_cases hdm : d = m
      · simp [regInsert, alookup, hdm]
      · simpa [regInsert, alookup, hdm] using hdup
    have := ih (regInsert p fs m) hfresh' (List.nodup_cons.mp hnd).2 hdup'
    rw [this]
    rfl

/-! ### Claim theorems -/

/-- **C1** (code bug).  The claim — and §4.2 step 7 of the spec, and
`Apply`'s own doc comment — say that applying `["-v", t]` with an
unparsable `t` sets the bound boolean to `true`, leaves `t` in the
stream, and returns no error.  The code cannot do this: every binding
is stored as a *pointer* (`AddFlag` requires `reflect.Ptr`), so
`to := reflect.TypeOf(v)` has kind `Ptr`, never `Bool`, the recovery
branch `if to.Kind() == reflect.Bool` is unreachable, and `Apply`
instead returns the wrapped coercion error, leaving the bound boolean
and the positional stream untouched.  Evaluated here on the registry
`{"v" ↦ *bool}` and the token list `["-v", "foo"]`. -/
theorem c1_bool_recovery_unreachable :
    applyGo extDefault ⟨true, [("v", .binding ⟨0, .bool⟩)]⟩ [(0, .vbool false)] ["-v", "foo"] =
      (⟨true, [("v", .binding ⟨0, .bool⟩)]⟩, [(0, .vbool false)],
       .goErr "could not read 'foo' for flag -v  foo could not be read as a bool") := rfl

/-- **C3** (counterexample).  The claim says `Coerce("", []string)` is
a zero-length sequence.  In fact `strings.Split("", ",")` is `[""]`,
one empty piece, so the coercion yields a one-element sequence holding
the empty string. -/
theorem c3_empty_token_not_empty_sequence :
    valueFromString extDefault (.slice .string) "" = .ok (.vslice .string [.vstring ""]) ∧
    (match valueFromString extDefault (.slice .string) "" with
      | .ok (.vslice _ l) => l.length
      | _ => 0) = 1 := ⟨rfl, rfl⟩

/-- **C3** (amended).  Coercing the empty token to a `[]string` target
yields a one-element sequence containing the empty string (the split
of `""` on the default delimiter is `[""]`, and each piece is coerced
to the element type), for every instantiation of the external
parsers. -/
theorem c3_empty_token_singleton_sequence (ext : Stdlib) :
    valueFromString ext (.slice .string) "" = .ok (.vslice .string [.vstring ""]) := rfl

/-- **C4** (code bug).  The spec's invariant says every coercion
result's shape matches the descriptor.  `intFromString` declares
`var i int` and returns it for every sized integer target, so coercing
`"5"` to `int32` yields a value of dynamic type `int`; coercing to
`*int32` then panics inside the pointer branch when
`p.Elem().Set(reflect.ValueOf(v))` assigns an `int` to an `int32` cell
— the code itself relies on the invariant that `intFromString`
violates. -/
theorem c4_int32_coercion_shape_mismatch :
    valueFromString extDefault .int32 "5" = .ok (.vint .int 5) ∧
    dynTypeOf (.vint .int 5) ≠ .int32 ∧
    valueFromString extDefault (.ptr .int32) "5" =
      .goPanic "reflect.Set: value of type int is not assignable to type int32" :=
  ⟨rfl, by decide, rfl⟩

/-- **C6** (code bug).  The claim — and the source's own final error
return and doc comment — expect a struct type with neither decode
capability to produce an `UnsupportedStructureCapability` error value.
The capability test itself aborts first:
`reflect.TypeOf((json.Unmarshaler)(nil))` is the nil `reflect.Type`
(the interface value is nil), and `Type.Implements(nil)` panics, so
*every* struct target other than `url.URL`/`time.Time` panics on a
non-empty token — even one that does implement an unmarshaler
interface — and the error return is unreachable. -/
theorem c6_capability_check_panics :
    valueFromString extDefault (.strct "main.myStruct" false false) "x" =
      .goPanic "reflect: nil type passed to Type.Implements" ∧
    valueFromString extDefault (.strct "main.jsonStruct" true true) "x" =
      .goPanic "reflect: nil type passed to Type.Implements" := ⟨rfl, rfl⟩

/-- **C2** (counterexample).  The claim says registration is atomic:
on a duplicate-name error none of the given names is registered and
the registry is exactly as before.  Registering `["a", "b"]` into a
registry that already holds `"b"` returns the duplicate error but
leaves `"a"` registered: the loop inserts names one at a time and
returns mid-way. -/
theorem c2_addflag_not_atomic :
    addFlag ⟨false, [("b", .binding ⟨1, .int⟩)]⟩ (.ptrArg ⟨2, .bool⟩) ["a", "b"] =
      (⟨false, [("a", .binding ⟨2, .bool⟩), ("b", .binding ⟨1, .int⟩)]⟩,
       .goErr "duplicate flag name.  'b' already exists.") ∧
    alookup "a" [("b", RegVal.binding ⟨1, .int⟩)] = none ∧
    alookup "a" [("a", RegVal.binding ⟨2, .bool⟩), ("b", RegVal.binding ⟨1, .int⟩)] =
      some (.binding ⟨2, .bool⟩) := ⟨rfl, rfl, rfl⟩

/-- **C2** (amended).  Registering one location under several names
where one already exists returns the duplicate-name error for the
first duplicate in argument order; the names strictly before it *are*
registered (the call is not atomic), the duplicate and the names after
it are not, and the duplicate's prior binding is untouched. -/
theorem c2_addflag_partial_until_first_dup
    (fs : Flags) (p : FlagPtr) (pre : List String) (d : String) (post : List String)
    (hfresh : ∀ m ∈ pre, alookup m fs.flags = none) (hnd : pre.Nodup)
    (hdup : (alookup d fs.flags).isSome = true) :
    addFlag fs (.ptrArg p) (pre ++ d :: post) =
      (regAll p fs pre,
       .goErr ("duplicate flag name.  '" ++ d ++ "' already exists.")) ∧
    alookup d (regAll p fs pre).flags = alookup d fs.flags := by
  have hne : pre ++ d :: post ≠ [] := by simp
  refine ⟨?_, ?_⟩
  · rw [addFlag, if_neg hne]
    exact addFlagNames_first_dup p d post pre fs hfresh hnd hdup
  · refine regAll_alookup_of_not_mem p pre fs d ?_
    intro hd
    rw [hfresh d hd] at hdup
    exact Bool.false_ne_true hdup

/-- **C2** (witness): the amended theorem applied to the registry
`{"b"}` and the registration `AddFlag(ptr, "a", "b")`. -/
theorem c2_addflag_partial_witness :
    alookup "a" [("b", RegVal.binding ⟨1, .int⟩)] = none ∧
    (alookup "b" [("b", RegVal.binding ⟨1, GoType.int⟩)]).isSome = true ∧
    (addFlag ⟨false, [("b", .binding ⟨1, .int⟩)]⟩ (.ptrArg ⟨2, .bool⟩) (["a"] ++ "b" :: []) =
      (regAll ⟨2, .bool⟩ ⟨false, [("b", .binding ⟨1, .int⟩)]⟩ ["a"],
       .goErr ("duplicate flag name.  '" ++ "b" ++ "' already exists.")) ∧
     alookup "b" (regAll ⟨2, .bool⟩ ⟨false, [("b", .binding ⟨1, .int⟩)]⟩ ["a"]).flags =
       alookup "b" (⟨false, [("b", .binding ⟨1, .int⟩)]⟩ : Flags).flags) :=
  ⟨rfl, rfl,
   c2_addflag_partial_until_first_dup ⟨false, [("b", .binding ⟨1, .int⟩)]⟩ ⟨2, .bool⟩
     ["a"] "b" [] (by decide) (by decide) (by decide)⟩

/-- **C5** (counterexample).  The claim says a permissive-mode unknown
marker token is re-appended to the positional stream character for
character, so `"--x"` re-appends as `"--x"`.  The source re-appends
`"-" + TrimLeft(token, "-")`: `"--x"` comes back as `"-x"`, with a
single dash. -/
theorem c5_double_dash_collapsed :
    applyGo extDefault ⟨true, []⟩ [] ["--x"] =
      (⟨true, [("", .params ["-x"])]⟩, [], .ok) ∧
    Parameters ⟨true, [("", .params ["-x"])]⟩ = ["-x"] ∧
    ("-x" : String) ≠ "--x" := ⟨rfl, rfl, by decide⟩

/-- **C5** (amended).  In permissive mode an unknown marker token is
re-appended to the positional stream as a single dash followed by the
dash-stripped name: a one-dash token is restored verbatim, while a
multi-dash token collapses to one dash. -/
theorem c5_unknown_reappended_single_dash
    (ext : Stdlib) (fs : Flags) (h : Heap) (tok : String) (rest : List String)
    (hmode : fs.IgnoreUnknown = true) (hdash : startsWithDash tok = true)
    (hne : tok ≠ "-") (hunk : alookup (trimDash tok) fs.flags = none) :
    applyGo ext fs h (tok :: rest) =
      applyGo ext (appendParam fs ("-" ++ trimDash tok)) h rest := by
  cases rest with
  | nil => simp [applyGo, hdash, hne, hunk, hmode]
  | cons a t => simp [applyGo, hdash, hne, hunk, hmode]

/-- **C5** (witness): the amended theorem applied to the empty
permissive registry and the token `"--x"`. -/
theorem c5_unknown_reappended_witness :
    (⟨true, []⟩ : Flags).IgnoreUnknown = true ∧
    startsWithDash "--x" = true ∧
    ("--x" : String) ≠ "-" ∧
    alookup (trimDash "--x") (⟨true, []⟩ : Flags).flags = none ∧
    applyGo extDefault ⟨true, []⟩ [] ["--x"] =
      applyGo extDefault (appendParam ⟨true, []⟩ ("-" ++ trimDash "--x")) [] [] :=
  ⟨rfl, rfl, by decide, rfl,
   c5_unknown_reappended_single_dash extDefault ⟨true, []⟩ [] "--x" []
     rfl rfl (by decide) rfl⟩

/-- **C7** (counterexample).  The claim says a known flag whose next
token is exactly `"-"` consumes the `"-"` as its candidate value and
advances two positions.  The lookahead test is
`!strings.HasPrefix(args[i+1], "-")`, and a lone `"-"` *does* have
that prefix, so the value is treated as absent: with `{"n" ↦ *string}`
and tokens `["-n", "-"]` the string binding receives `""` (not `"-"`)
and the `"-"` is collected as a positional parameter by the next
iteration. -/
theorem c7_lone_dash_not_consumed :
    applyGo extDefault ⟨true, [("n", .binding ⟨0, .string⟩)]⟩ [(0, .vstring "old")] ["-n", "-"] =
      (⟨true, [("", .params ["-"]), ("n", .binding ⟨0, .string⟩)]⟩,
       [(0, .vstring ""), (0, .vstring "old")], .ok) ∧
    heapLookup 0 [(0, .vstring ""), (0, .vstring "old")] = some (.vstring "") ∧
    Parameters ⟨true, [("", .params ["-"]), ("n", .binding ⟨0, .string⟩)]⟩ = ["-"] :=
  ⟨rfl, rfl, rfl⟩

/-- **C7** (amended).  For *every* known flag — whatever the type of
its binding — whose next token is exactly `"-"`, the lookahead rejects
any dash-led token (including the lone `"-"`), so the `"-"` is never
consumed as the candidate value: `Apply` performs the value-absent
step, coercing the binding's type from the empty token, and continues
at the `"-"` token itself (an advance of one position, never two).
In particular, for a string binding the bound cell receives `""` and
the `"-"` is then collected as a positional parameter by the next
iteration; for a binding whose empty-token coercion trips the C4
shape defect, such as a `float64` binding, `Apply` aborts with that
panic — still without consuming the `"-"`. -/
theorem c7_lone_dash_value_absent
    (ext : Stdlib) (fs : Flags) (h : Heap) (a : String) (rv : RegVal) (rest : List String)
    (h1 : startsWithDash a = true) (h2 : a ≠ "-")
    (h3 : alookup (trimDash a) fs.flags = some rv) :
    applyGo ext fs h (a :: "-" :: rest) =
      absentValueStep ext fs h rv (trimDash a) ("-" :: rest) ∧
    applyGo extDefault ⟨true, [("n", .binding ⟨0, .string⟩)]⟩ [(0, .vstring "old")]
        ["-n", "-"] =
      applyGo extDefault ⟨true, [("n", .binding ⟨0, .string⟩)]⟩
        [(0, .vstring ""), (0, .vstring "old")] ["-"] ∧
    applyGo extDefault ⟨true, [("f", .binding ⟨0, .float64⟩)]⟩ [] ["-f", "-"] =
      (⟨true, [("f", .binding ⟨0, .float64⟩)]⟩, [],
       .goPanic "reflect.Set: value of type *float64 is not assignable to type float64") := by
  refine ⟨?_, rfl, rfl⟩
  have hsd : startsWithDash "-" = true := rfl
  simp only [applyGo, absentValueStep]
  simp [h1, h2, h3, hsd]

/-- **C7** (witness): the amended theorem applied to the registry
`{"n" ↦ *string}` and the tokens `["-n", "-"]`. -/
theorem c7_lone_dash_value_absent_witness :
    startsWithDash "-n" = true ∧
    ("-n" : String) ≠ "-" ∧
    alookup (trimDash "-n") [("n", RegVal.binding ⟨0, .string⟩)] =
      some (.binding ⟨0, .string⟩) ∧
    (applyGo extDefault ⟨true, [("n", .binding ⟨0, .string⟩)]⟩ [(0, .vstring "old")]
        ("-n" :: "-" :: []) =
      absentValueStep extDefault ⟨true, [("n", .binding ⟨0, .string⟩)]⟩
        [(0, .vstring "old")] (.binding ⟨0, .string⟩) (trimDash "-n") ("-" :: []) ∧
     applyGo extDefault ⟨true, [("n", .binding ⟨0, .string⟩)]⟩ [(0, .vstring "old")]
        ["-n", "-"] =
      applyGo extDefault ⟨true, [("n", .binding ⟨0, .string⟩)]⟩
        [(0, .vstring ""), (0, .vstring "old")] ["-"] ∧
     applyGo extDefault ⟨true, [("f", .binding ⟨0, .float64⟩)]⟩ [] ["-f", "-"] =
      (⟨true, [("f", .binding ⟨0, .float64⟩)]⟩, [],
       .goPanic "reflect.Set: value of type *float64 is not assignable to type float64")) :=
  ⟨rfl, by decide, rfl,
   c7_lone_dash_value_absent extDefault ⟨true, [("n", .binding ⟨0, .string⟩)]⟩
     [(0, .vstring "old")] "-n" (.binding ⟨0, .string⟩) [] rfl (by decide) rfl⟩

/-- **C8** (counterexample).  The claim says the command tokens
`"build"`, `"BUILD"` and `"BuId"` all resolve to the registered entry
`"Build"`.  Resolution is `strings.EqualFold`, a whole-string
case-insensitive comparison: `"BuId"` (four letters, b-u-i-d) is not a
case variant of `"Build"` and does not resolve — `Run` reports it as
an unknown command — while a genuine case variant does. -/
theorem c8_buid_not_resolved :
    findCommand [("Build", .funcCmd)] "BuId" = none ∧
    (runGo extDefault [("Build", .funcCmd)] "prog" ⟨true, []⟩ [] ["BuId"]).1 =
      .runErr "'BuId' is not a known command" ∧
    (runGo extDefault [("Build", .funcCmd)] "prog" ⟨true, []⟩ [] ["build"]).1 =
      .invokeFunc "Build" [] := ⟨rfl, rfl, rfl⟩

/-- **C8** (amended).  With a command table whose sole entry is
`"Build"`, every token that is fold-equal to `"Build"` — `"build"`,
`"BUILD"`, `"bUiLd"`, and any other same-length case variant —
resolves to that entry's handler; `"BuId"` is not such a variant. -/
theorem c8_case_insensitive_resolution (cv : CmdVal) (arg : String)
    (hfold : equalFold "Build" arg = true) :
    findCommand [("Build", cv)] arg = some "Build" ∧
    (runGo extDefault [("Build", .funcCmd)] "prog" ⟨true, []⟩ [] ["build"]).1 =
      .invokeFunc "Build" [] ∧
    (runGo extDefault [("Build", .funcCmd)] "prog" ⟨true, []⟩ [] ["BUILD"]).1 =
      .invokeFunc "Build" [] ∧
    (runGo extDefault [("Build", .funcCmd)] "prog" ⟨true, []⟩ [] ["bUiLd"]).1 =
      .invokeFunc "Build" [] :=
  ⟨by simp [findCommand, hfold], rfl, rfl, rfl⟩

/-- **C8** (witness): the amended theorem applied to the case variant
`"bUiLd"`. -/
theorem c8_case_insensitive_witness :
    equalFold "Build" "bUiLd" = true ∧
    (findCommand [("Build", CmdVal.funcCmd)] "bUiLd" = some "Build" ∧
     (runGo extDefault [("Build", .funcCmd)] "prog" ⟨true, []⟩ [] ["build"]).1 =
       .invokeFunc "Build" [] ∧
     (runGo extDefault [("Build", .funcCmd)] "prog" ⟨true, []⟩ [] ["BUILD"]).1 =
       .invokeFunc "Build" [] ∧
     (runGo extDefault [("Build", .funcCmd)] "prog" ⟨true, []⟩ [] ["bUiLd"]).1 =
       .invokeFunc "Build" []) :=
  ⟨by decide, c8_case_insensitive_resolution .funcCmd "bUiLd" (by decide)⟩

/-- **C9** (counterexample).  The claim quantifies over *every*
registered flag name: for a registered name that itself begins with a
dash — `AddFlag` accepts any name — the stripped lookup cannot reach
it.  With `"-v"` registered, the token `"--v"` (one leading dash
followed by the name `"-v"`) trims to `"v"`, the lookup misses, and
strict-mode `Apply` fails with the unknown-flag error instead of
resolving the binding. -/
theorem c9_dash_leading_name_not_resolvable :
    applyGo extDefault ⟨false, [("-v", .binding ⟨0, .bool⟩)]⟩ [] ["--v"] =
      (⟨false, [("-v", .binding ⟨0, .bool⟩)]⟩, [], .goErr "-v is an unknown flag") ∧
    ("--v" : String) = dashes 1 ++ "-v" := ⟨rfl, by decide⟩

/-- **C9** (amended).  For every registered flag name `n` that is
non-empty and does not itself begin with a dash, and every `k ≥ 1`, a
token of `k` leading dashes followed by `n` trims to exactly `n`
before the registry lookup, and `Apply` behaves identically on it and
on the single-dash spelling `-n` — the dash count is immaterial. -/
theorem c9_leading_dashes_interchangeable
    (ext : Stdlib) (fs : Flags) (h : Heap) (rest : List String) (n : String) (k : Nat)
    (hk : 1 ≤ k) (hne : n ≠ "") (hnd : startsWithDash n = false) :
    trimDash (dashes k ++ n) = n ∧
    applyGo ext fs h ((dashes k ++ n) :: rest) = applyGo ext fs h (("-" ++ n) :: rest) := by
  obtain ⟨c, cs, hn⟩ : ∃ c cs, n.data = c :: cs := by
    cases hd : n.data with
    | nil => exact absurd (String.ext hd) hne
    | cons c cs => exact ⟨c, cs, rfl⟩
  have hc : (c == '-') = false := by
    have := hnd
    rw [startsWithDash, hn] at this
    exact this
  have hc' : c ≠ '-' := by simpa using hc
  have hdata1 : (dashes k ++ n).data = List.replicate k '-' ++ n.data := by
    rw [String.data_append]; rfl
  have hdata2 : ("-" ++ n).data = '-' :: n.data := by
    rw [String.data_append]; rfl
  have trim1 : trimDash (dashes k ++ n) = n := by
    rw [trimDash, hdata1, trimDashList_replicate, hn, trimDashList_of_head_ne c cs hc', ← hn]
  have trim2 : trimDash ("-" ++ n) = n := by
    rw [trimDash, hdata2]
    show String.mk (trimDashList ('-' :: n.data)) = n
    rw [trimDashList]
    simp only [beq_self_eq_true, if_true]
    rw [hn, trimDashList_of_head_ne c cs hc', ← hn]
  obtain ⟨k', rfl⟩ : ∃ k', k = k' + 1 := ⟨k - 1, (Nat.succ_pred_eq_of_pos hk).symm⟩
  have start1 : startsWithDash (dashes (k' + 1) ++ n) = true := by
    rw [startsWithDash, hdata1, List.replicate_succ]
    rfl
  have start2 : startsWithDash ("-" ++ n) = true := by
    rw [startsWithDash, hdata2]
    rfl
  have len1 : (dashes (k' + 1) ++ n).data.length = k' + 1 + n.data.length := by
    rw [hdata1, List.length_append, List.length_replicate]
  have ne1 : dashes (k' + 1) ++ n ≠ "-" := by
    intro heq
    have hlen : (dashes (k' + 1) ++ n).data.length = 1 := by rw [heq]; rfl
    rw [len1, hn, List.length_cons] at hlen
    omega
  have ne2 : "-" ++ n ≠ "-" := by
    intro heq
    have hlen : ('-' :: n.data).length = 1 := by rw [← hdata2, heq]; rfl
    rw [hn, List.length_cons, List.length_cons] at hlen
    omega
  refine ⟨trim1, ?_⟩
  cases rest with
  | nil =>
    simp only [applyGo]
    simp [start1, start2, ne1, ne2, trim1, trim2]
  | cons b t =>
    simp only [applyGo]
    simp [start1, start2, ne1, ne2, trim1, trim2]

/-- **C9** (witness): the amended theorem applied to the name `"v"`
with three leading dashes. -/
theorem c9_leading_dashes_witness :
    1 ≤ 3 ∧ ("v" : String) ≠ "" ∧ startsWithDash "v" = false ∧
    (trimDash (dashes 3 ++ "v") = "v" ∧
     applyGo extDefault ⟨true, [("v", .binding ⟨0, .bool⟩)]⟩ [] ((dashes 3 ++ "v") :: []) =
       applyGo extDefault ⟨true, [("v", .binding ⟨0, .bool⟩)]⟩ [] (("-" ++ "v") :: [])) :=
  ⟨by decide, by decide, rfl,
   c9_leading_dashes_interchangeable extDefault ⟨true, [("v", .binding ⟨0, .bool⟩)]⟩ [] []
     "v" 3 (by decide) (by decide) rfl⟩

/-- **C10** (counterexample).  The claim says that when the first token
equals the process name, `Run` behaves exactly as if invoked on the
remaining tokens.  The strip is applied only once: with process name
`"p"` and a command registered as `"p"`, `Run(["p", "p"])` strips one
token and then selects the command `"p"` from the second token, while
`Run(["p"])` — the remaining tokens — strips again and fails with "no
command given"; the two behaviours differ. -/
theorem c10_strip_not_reapplied :
    (runGo extDefault [("p", .funcCmd)] "p" ⟨true, []⟩ [] ["p", "p"]).1 =
      .invokeFunc "p" [] ∧
    (runGo extDefault [("p", .funcCmd)] "p" ⟨true, []⟩ [] ["p"]).1 =
      .runErr "no command given.  specify a command: p <command>" ∧
    (runGo extDefault [("p", .funcCmd)] "p" ⟨true, []⟩ [] ["p", "p"]).1 ≠
      (runGo extDefault [("p", .funcCmd)] "p" ⟨true, []⟩ [] ["p"]).1 :=
  ⟨rfl, rfl, by decide⟩

/-- **C10** (amended).  When the first token equals the process name,
`Run` drops it and continues with flag parsing and command resolution
on the remaining tokens; the program-name check is not reapplied, so
this equals invoking `Run` on the remaining tokens exactly when the
remaining list does not itself begin with the process name.  (The
first token of such a list can therefore never select a command, even
one registered under the program name.) -/
theorem c10_strip_once (ext : Stdlib) (cmds : Commands) (osArgs0 : String)
    (fs : Flags) (h : Heap) (rest : List String)
    (hre : rest.head? ≠ some osArgs0) :
    runGo ext cmds osArgs0 fs h (osArgs0 :: rest) = runGo ext cmds osArgs0 fs h rest := by
  cases rest with
  | nil => simp [runGo]
  | cons a t =>
    have ha : a ≠ osArgs0 := by simpa using hre
    simp [runGo, ha]

/-- **C10** (witness): the amended theorem applied to process name
`"p"` and remaining tokens `["q"]`. -/
theorem c10_strip_once_witness :
    (["q"] : List String).head? ≠ some "p" ∧
    runGo extDefault [("p", .funcCmd)] "p" ⟨true, []⟩ [] ["p", "q"] =
      runGo extDefault [("p", .funcCmd)] "p" ⟨true, []⟩ [] ["q"] :=
  ⟨by decide,
   c10_strip_once extDefault [("p", .funcCmd)] "p" ⟨true, []⟩ [] ["q"] (by decide)⟩

end Mainline
